import Mathlib

/-!
Verification development for the trivia-experiment engine (Project3_5243).

The repository consists of five near-duplicate Streamlit scripts.  The
definitions below are a shallow embedding of the core logic:

* the balanced sampler (`balanced_subset` in new_app_code.py, with the same
  walk in create_subset of experiment_app_new.py / experiment_app_updated.py
  and create_balanced_stimuli of experiment_app.py),
* the submit handler of experiment_app.py (`submitApp`) and the dataclass
  variant's `run_trial` of experiment_app_new.py,
* the completion-time persistence step (`finish` of
  experiment_app_updated.py, whose save_to_google_sheets wraps the remote
  append in try/except).

Randomness (random.sample, random.shuffle) is reified: each draw is an
explicit list of chosen indices and each shuffle result is an explicit list
constrained by a List.Perm hypothesis.  In-place mutation of shared Python
objects is represented by an id-keyed update (`applyMarks`), which agrees
with Python's aliasing semantics whenever ids are pairwise distinct — the
theorems carry that hypothesis, matching the spec's bank contract (a bank
with a duplicate id fails to load).  Wall-clock times are exact rationals;
Python's round(x, 2) is embedded as `round2`.
-/

/-- Suffix test, Python's str.endswith rendered over the character list
(String.endsWith itself does not reduce inside the kernel, so witnesses could
not be checked with it). -/
def strEndsWith (s suffix : String) : Bool :=
  suffix.data.isSuffixOf s.data

/-- Whitespace strip, Python's str.strip() rendered over the character list:
drop leading and trailing whitespace characters.  Only emptiness after
stripping matters to the claims. -/
def strTrim (s : String) : String :=
  ⟨((s.data.dropWhile Char.isWhitespace).reverse.dropWhile Char.isWhitespace).reverse⟩

/-- Stimulus record, mirroring the dataclass of new_app_code.py (id, text,
truth, photo, show_photo with default False).  experiment_app.py keeps the
same fields in a plain dict. -/
structure Stimulus where
  id : String
  text : String
  truth : Bool
  photo : Option String
  show_photo : Bool := false
  deriving DecidableEq, Repr

/-- Image path property of new_app_code.py:
`IMGS / self.photo if self.photo and self.photo.endswith(".png") else None`.
An empty photo string is falsy in Python and also fails the suffix test, so
the truthiness check collapses into the endsWith test. -/
def Stimulus.path (s : Stimulus) : Option String :=
  match s.photo with
  | some p => if strEndsWith p ".png" then some ("images/" ++ p) else none
  | none => none

/-- Boolean value of the has_photo property of experiment_app_new.py and
experiment_app_updated.py: `self.photo and self.photo.endswith(".png")`. -/
def Stimulus.has_photo (s : Stimulus) : Bool :=
  match s.photo with
  | some p => strEndsWith p ".png"
  | none => false

/-- Quota constants `N_TRUE, N_FALSE, N_PHOTO_EACH = 8, 8, 4` shared by all
variants; create_balanced_stimuli of experiment_app.py takes them as
parameters with these defaults, so the development keeps them as parameters
in the sampler theorems. -/
def N_TRUE : Nat := 8

/-- Default number of false statements per trial list. -/
def N_FALSE : Nat := 8

/-- Default photo quota per truth value. -/
def N_PHOTO_EACH : Nat := 4

/-- Pool `[b for b in bank if b.truth]` from balanced_subset. -/
def truePool (bank : List Stimulus) : List Stimulus :=
  bank.filter (fun s => s.truth)

/-- Pool `[b for b in bank if not b.truth]` from balanced_subset. -/
def falsePool (bank : List Stimulus) : List Stimulus :=
  bank.filter (fun s => !s.truth)

/-- Deterministic core of random.sample: the random draw is reified as the
list of chosen positions into the pool, and the sample is the pool entries at
those positions (in draw order). -/
def sampleIdx (l : List Stimulus) (idxs : List Nat) : List Stimulus :=
  idxs.filterMap (fun i => l.get? i)

/-- Validity of a reified random.sample draw: `n` pairwise-distinct in-bounds
positions (sampling without replacement).  random.sample(pool, n) raises when
the pool has fewer than n entries, so a valid draw also witnesses the
spec's "bank contains at least n entries" precondition. -/
def ValidSample (idxs : List Nat) (l : List Stimulus) (n : Nat) : Prop :=
  idxs.Nodup ∧ idxs.length = n ∧ ∀ i ∈ idxs, i < l.length

instance (idxs : List Nat) (l : List Stimulus) (n : Nat) :
    Decidable (ValidSample idxs l n) := by
  unfold ValidSample; infer_instance

/-- Photo-assignment walk of balanced_subset (new_app_code.py lines 72-79):
`t = f = 0; for s in with_ph: mark a true entry while t < quota, else mark a
false entry while f < quota; break once t == f == quota`.  The returned list
collects, in walk order, the entries whose show_photo flag the loop sets. -/
def photoMarks (quota : Nat) : List Stimulus → Nat → Nat → List Stimulus
  | [], _, _ => []
  | s :: rest, t, f =>
    if s.truth ∧ t < quota then
      if t + 1 = quota ∧ f = quota then [s]
      else s :: photoMarks quota rest (t + 1) f
    else if s.truth = false ∧ f < quota then
      if t = quota ∧ f + 1 = quota then [s]
      else s :: photoMarks quota rest t (f + 1)
    else
      if t = quota ∧ f = quota then []
      else photoMarks quota rest t f

/-- Ids of the entries marked by the photo walk. -/
def markIds (quota : Nat) (photoPerm : List Stimulus) : List String :=
  (photoMarks quota photoPerm 0 0).map Stimulus.id

/-- Effect of the loop's `s.show_photo = True` mutations on any list that
aliases the marked objects.  Python mutates the shared objects in place; with
pairwise-distinct ids (the spec's bank contract) an object is determined by
its id, so the id-keyed update reproduces the aliasing semantics exactly. -/
def applyMarks (ids : List String) (l : List Stimulus) : List Stimulus :=
  l.map (fun s => if s.id ∈ ids then { s with show_photo := true } else s)

/-- Balanced sampler balanced_subset of new_app_code.py with the randomness
reified: `shuffled` is the result of random.shuffle on the concatenated true
and false draws, `photoPerm` the result of random.shuffle on its photo-bearing
subsequence (both constrained by SamplerRun below).  The function returns the
shuffled trial list carrying the show_photo flags set by the walk. -/
def balanced_subset (quota : Nat) (shuffled photoPerm : List Stimulus) :
    List Stimulus :=
  applyMarks (markIds quota photoPerm) shuffled

/-- State of the shared bank after a sampler run.  balanced_subset never
copies: random.sample returns references to the bank's own objects, so every
`s.show_photo = True` in the walk mutates an entry held by the bank.  This
definition records that effect (id-keyed, see applyMarks). -/
def bankAfter (quota : Nat) (bank photoPerm : List Stimulus) : List Stimulus :=
  applyMarks (markIds quota photoPerm) bank

/-- Validity of one reified sampler run: the two draws are valid samples from
the truth partitions, `shuffled` is a permutation of their concatenation
(random.shuffle), and `photoPerm` is a permutation of the photo-bearing
subsequence `[s for s in trials if s.path]` (the independent second
shuffle). -/
def SamplerRun (bank : List Stimulus) (nT nF : Nat) (idxT idxF : List Nat)
    (shuffled photoPerm : List Stimulus) : Prop :=
  ValidSample idxT (truePool bank) nT ∧ ValidSample idxF (falsePool bank) nF ∧
  List.Perm shuffled (sampleIdx (truePool bank) idxT ++ sampleIdx (falsePool bank) idxF) ∧
  List.Perm photoPerm (shuffled.filter (fun s => s.path.isSome))

instance (bank : List Stimulus) (nT nF : Nat) (idxT idxF : List Nat)
    (shuffled photoPerm : List Stimulus) :
    Decidable (SamplerRun bank nT nF idxT idxF shuffled photoPerm) := by
  unfold SamplerRun; infer_instance

/-- Image-display condition of trial_page (new_app_code.py line 130):
`if stim.show_photo and stim.path and stim.path.exists()`.  Whether the asset
file exists on disk is an external fact, reified as `assetLoads`. -/
def displaysImage (s : Stimulus) (assetLoads : Bool) : Bool :=
  s.show_photo && s.path.isSome && assetLoads

/-- Python's round(x, 2) on an exact rational: round to the nearest hundredth
(Mathlib's round resolves ties upward where CPython's float round is
half-to-even; the two agree everywhere except exact half-hundredths, which
the claims never depend on). -/
def round2 (x : ℚ) : ℚ :=
  ((round (100 * x) : ℤ) : ℚ) / 100

/-- Response dict appended by the Submit-and-Continue handler of
experiment_app.py (lines 104-115). -/
structure Response0 where
  participant_id : String
  group : String
  stimulus_id : String
  text : String
  truth : Bool
  photo : Option String
  show_photo : Bool
  answer : String
  response_text : String
  response_time : ℚ
  deriving DecidableEq, Repr

/-- Session state of experiment_app.py: the st.session_state keys
participant_id, group, stimuli_subset, responses, current_index and
start_time (start_time is absent until the first trial renders). -/
structure AppSession where
  participant_id : String
  group : String
  stimuli_subset : List Stimulus
  responses : List Response0
  current_index : Nat
  start_time : Option ℚ
  deriving DecidableEq, Repr

/-- Sentinel option of the answer radio in experiment_app.py. -/
def SENTINEL : String := "-- Select an answer --"

/-- Session state created on first contact by experiment_app.py:
current_index starts at 0, responses empty, no clock yet. -/
def initialAppSession (pid group : String) (stimuli : List Stimulus) :
    AppSession :=
  { participant_id := pid, group := group, stimuli_subset := stimuli,
    responses := [], current_index := 0, start_time := none }

/-- Clock start of experiment_app.py (lines 90-91):
`if "start_time" not in st.session_state: st.session_state.start_time = time.time()`.
Idempotent — a re-render with the clock already set does not restart it. -/
def startClockApp (sess : AppSession) (now : ℚ) : AppSession :=
  match sess.start_time with
  | some _ => sess
  | none => { sess with start_time := some now }

/-- Submit-and-Continue handler of experiment_app.py (lines 99-117).  The
handler runs only while current_index addresses a stimulus and after the
clock has been set, hence the outer match; a rejected submission (sentinel
answer or whitespace-only rationale) only shows a warning, mutating nothing.
On success the response dict is appended and current_index incremented
(experiment_app.py never clears start_time).  The returned Option carries the
accepted record — none models the validation warning. -/
def submitApp (sess : AppSession) (answer response_text : String) (now : ℚ) :
    AppSession × Option Response0 :=
  match sess.stimuli_subset.get? sess.current_index, sess.start_time with
  | some stim, some t0 =>
    if answer = SENTINEL ∨ strTrim response_text = "" then (sess, none)
    else
      let r : Response0 :=
        { participant_id := sess.participant_id, group := sess.group,
          stimulus_id := stim.id, text := stim.text, truth := stim.truth,
          photo := stim.photo, show_photo := stim.show_photo,
          answer := answer, response_text := response_text,
          response_time := round2 (now - t0) }
      ({ sess with responses := sess.responses ++ [r],
                   current_index := sess.current_index + 1 }, some r)
  | _, _ => (sess, none)

/-- Response dict appended by run_trial of experiment_app_new.py
(lines 121-129); the environment strings (timestamp, python version,
platform, streamlit version) are reified as plain fields. -/
structure ResponseN where
  timestamp : String
  participant_id : String
  variant : String
  prompt_group : String
  stimulus_id : String
  truth : Bool
  answer : Bool
  correct : Bool
  response_text : String
  show_photo : Bool
  rt : ℚ
  python : String
  platform : String
  streamlit : String
  deriving DecidableEq, Repr

/-- Session state of experiment_app_new.py: pid, variant, group, stimuli,
responses, idx and t_start (None between trials). -/
structure NewSession where
  pid : String
  variant : String
  group : String
  stimuli : List Stimulus
  responses : List ResponseN
  idx : Nat
  t_start : Option ℚ
  deriving DecidableEq, Repr

/-- Clock start of run_trial (experiment_app_new.py line 113):
`if ss.t_start is None: ss.t_start = time.time()`. -/
def startClockNew (ss : NewSession) (now : ℚ) : NewSession :=
  match ss.t_start with
  | some _ => ss
  | none => { ss with t_start := some now }

/-- Submit branch of run_trial (experiment_app_new.py lines 117-130) as a
pure step: validation rejects a whitespace-only rationale (st.warning +
st.stop, no mutation); on success rt is computed from t_start, t_start is
cleared, the record — with the derived answer and correct booleans — is
appended and idx incremented.  The t_start = none branch is unreachable in
the script because the clock is set before the form can be submitted. -/
def run_trial (ss : NewSession) (stim : Stimulus) (ans txt ts py pf sv : String)
    (now : ℚ) : NewSession × Option ResponseN :=
  if strTrim txt = "" then (ss, none)
  else
    match ss.t_start with
    | none => (ss, none)
    | some t0 =>
      let r : ResponseN :=
        { timestamp := ts, participant_id := ss.pid, variant := ss.variant,
          prompt_group := ss.group, stimulus_id := stim.id, truth := stim.truth,
          answer := ans == "True", correct := (ans == "True") == stim.truth,
          response_text := strTrim txt, show_photo := stim.show_photo,
          rt := round2 (now - t0), python := py, platform := pf, streamlit := sv }
      ({ ss with responses := ss.responses ++ [r], t_start := none,
                 idx := ss.idx + 1 }, some r)

/-- Local merge of the completion branch (experiment_app_updated.py line 125,
identically experiment_app.py lines 121-126): if the local CSV exists its
rows are read and the new rows concatenated after them, otherwise the new
rows alone form the store.  Rows are opaque to the merge (pandas.concat is
row-agnostic), hence the type parameter. -/
def mergeLocal {α : Type} (existing : Option (List α)) (rows : List α) :
    List α :=
  match existing with
  | some ex => ex ++ rows
  | none => rows

/-- Outcome of one completion-time flush. -/
structure FlushResult (α : Type) where
  localStore : List α
  localOk : Bool
  remoteAttempt : List α
  remoteOk : Bool
  remoteWarned : Bool
  deriving DecidableEq, Repr

/-- Completion branch finish of experiment_app_updated.py (lines 122-126):
`df = pd.DataFrame(ss.responses)`, merge with the existing local CSV, write
the merged frame back, then `save_to_google_sheets(df)` — note that df has
already been rebound to the merged frame, so the remote append is attempted
with the merged rows, not just the session's rows.  save_to_google_sheets
(lines 27-39) wraps the append in try/except, turning any remote failure
(auth, network, quota) into an st.warning; the external outcome is reified
as `remoteFails`.  The local write precedes the remote attempt and is
unconditional. -/
def finish {α : Type} (existing : Option (List α)) (responses : List α)
    (remoteFails : Bool) : FlushResult α :=
  let df := mergeLocal existing responses
  { localStore := df, localOk := true, remoteAttempt := df,
    remoteOk := !remoteFails, remoteWarned := remoteFails }

/-- Concrete bank entry: true statement with a usable (.png) photo. -/
def exA : Stimulus := { id := "a", text := "sa", truth := true, photo := some "a.png" }

/-- Concrete bank entry: true statement without a photo. -/
def exB : Stimulus := { id := "b", text := "sb", truth := true, photo := none }

/-- Concrete bank entry: false statement with a usable (.png) photo. -/
def exC : Stimulus := { id := "c", text := "sc", truth := false, photo := some "c.png" }

/-- Concrete bank entry: false statement whose photo reference is not a .png
file. -/
def exD : Stimulus := { id := "d", text := "sd", truth := false, photo := some "d.jpg" }

/-- Concrete four-entry bank used by witnesses and counterexamples. -/
def exBank : List Stimulus := [exA, exB, exC, exD]

/-- Concrete shuffle outcome for a run drawing the whole bank (identity
permutation of the concatenated draws). -/
def exShuffled : List Stimulus := [exA, exB, exC, exD]

/-- Concrete second-shuffle outcome: the photo-bearing subsequence of
exShuffled in order. -/
def exPhotoPerm : List Stimulus := [exA, exC]

/-- Concrete session state of experiment_app.py sitting on trial 0 with the
clock running. -/
def exAppSession : AppSession :=
  { participant_id := "p1", group := "Explain", stimuli_subset := exShuffled,
    responses := [], current_index := 0, start_time := some 1 }

/-- Concrete session state of experiment_app_new.py sitting on trial 0 with
the clock running. -/
def exNewSession : NewSession :=
  { pid := "p1", variant := "A", group := "Explain", stimuli := exShuffled,
    responses := [], idx := 0, t_start := some 1 }

example : Stimulus.path { id := "a", text := "t", truth := true, photo := some "x.png" } =
    some "images/x.png" := by decide

example : Stimulus.path { id := "a", text := "t", truth := true, photo := some "x.jpg" } =
    none := by decide

example : Stimulus.has_photo { id := "a", text := "t", truth := true, photo := none } =
    false := by decide

example : SamplerRun exBank 2 2 [0, 1] [0, 1] exShuffled exPhotoPerm := by decide

example : balanced_subset 1 exShuffled exPhotoPerm =
    [{ exA with show_photo := true }, exB, { exC with show_photo := true }, exD] := by
  decide

/-- Sampling at in-bounds positions yields one entry per position. -/
theorem sampleIdx_length (l : List Stimulus) (idxs : List Nat)
    (h : ∀ i ∈ idxs, i < l.length) : (sampleIdx l idxs).length = idxs.length := by
  induction idxs with
  | nil => rfl
  | cons i rest ih =>
    have hi : i < l.length := h i (by simp)
    obtain ⟨a, ha⟩ : ∃ a, l.get? i = some a := by
      cases hg : l.get? i with
      | none => exact absurd (List.get?_eq_none.1 hg) (by omega)
      | some a => exact ⟨a, rfl⟩
    have ha' : l[i]? = some a := by simpa [List.get?_eq_getElem?] using ha
    have hstep : sampleIdx l (i :: rest) = a :: sampleIdx l rest := by
      simp [sampleIdx, List.filterMap_cons, ha']
    rw [hstep, List.length_cons, List.length_cons,
      ih fun j hj => h j (List.mem_cons_of_mem _ hj)]

/-- Every sampled entry comes from the pool. -/
theorem mem_sampleIdx {s : Stimulus} {l : List Stimulus} {idxs : List Nat}
    (h : s ∈ sampleIdx l idxs) : s ∈ l := by
  obtain ⟨i, _, hi⟩ := List.mem_filterMap.1 h
  exact List.get?_mem hi

/-- Sampling without replacement from a duplicate-free pool yields a
duplicate-free list. -/
theorem sampleIdx_nodup (l : List Stimulus) (idxs : List Nat) (hl : l.Nodup)
    (hidx : idxs.Nodup) (hb : ∀ i ∈ idxs, i < l.length) :
    (sampleIdx l idxs).Nodup := by
  induction idxs with
  | nil => simp [sampleIdx]
  | cons i rest ih =>
    have hi : i < l.length := hb i (by simp)
    obtain ⟨a, ha⟩ : ∃ a, l.get? i = some a := by
      cases hg : l.get? i with
      | none => exact absurd (List.get?_eq_none.1 hg) (by omega)
      | some a => exact ⟨a, rfl⟩
    have ha' : l[i]? = some a := by simpa [List.get?_eq_getElem?] using ha
    have hstep : sampleIdx l (i :: rest) = a :: sampleIdx l rest := by
      simp [sampleIdx, List.filterMap_cons, ha']
    rw [hstep]
    refine List.nodup_cons.2 ⟨?_, ih hidx.of_cons fun j hj => hb j (List.mem_cons_of_mem _ hj)⟩
    intro hmem
    obtain ⟨j, hj, hgj⟩ := List.mem_filterMap.1 hmem
    have hji : j = i := by
      refine List.getElem?_inj (hb j (List.mem_cons_of_mem _ hj)) hl ?_
      rw [← List.get?_eq_getElem?, ← List.get?_eq_getElem?, hgj, ha]
    exact (List.nodup_cons.1 hidx).1 (hji ▸ hj)

/-- Ids of a sample from a pool with duplicate-free ids are duplicate-free. -/
theorem sampleIdx_map_id_nodup (l : List Stimulus) (idxs : List Nat)
    (hl : (l.map Stimulus.id).Nodup) (hidx : idxs.Nodup)
    (hb : ∀ i ∈ idxs, i < l.length) :
    ((sampleIdx l idxs).map Stimulus.id).Nodup := by
  refine List.Nodup.map_on ?_ (sampleIdx_nodup l idxs (hl.of_map _) hidx hb)
  intro x hx y hy hxy
  exact List.inj_on_of_nodup_map hl (mem_sampleIdx hx) (mem_sampleIdx hy) hxy

/-- The marked entries form a subsequence of the walked list. -/
theorem photoMarks_sublist (quota : Nat) :
    ∀ (l : List Stimulus) (t f : Nat), List.Sublist (photoMarks quota l t f) l := by
  intro l
  induction l with
  | nil => intro t f; simp [photoMarks]
  | cons s rest ih =>
    intro t f
    simp only [photoMarks]
    split
    · split
      · exact (List.nil_sublist rest).cons₂ s
      · exact (ih _ _).cons₂ s
    · split
      · split
        · exact (List.nil_sublist rest).cons₂ s
        · exact (ih _ _).cons₂ s
      · split
        · exact List.nil_sublist _
        · exact (ih _ _).cons s

/-- Count of true entries marked by the walk: the true quota still open, or
every true entry of the walked list once the quota cannot be filled. -/
theorem photoMarks_countP_true (quota : Nat) :
    ∀ (l : List Stimulus) (t f : Nat),
      (photoMarks quota l t f).countP (fun s => s.truth)
        = min (quota - t) (l.countP (fun s => s.truth)) := by
  intro l
  induction l with
  | nil => intro t f; simp [photoMarks]
  | cons s rest ih =>
    intro t f
    by_cases hs : s.truth = true
    · simp only [photoMarks]
      by_cases ht : t < quota
      · rw [if_pos ⟨hs, ht⟩]
        by_cases hbr : t + 1 = quota ∧ f = quota
        · rw [if_pos hbr]
          simp [List.countP_cons, hs]
          omega
        · rw [if_neg hbr]
          simp [List.countP_cons, hs, ih (t + 1) f]
          omega
      · rw [if_neg fun h => ht h.2, if_neg fun h => by { rw [hs] at h; exact absurd h.1 (by simp) }]
        by_cases hbr : t = quota ∧ f = quota
        · rw [if_pos hbr]
          simp [List.countP_cons, hs]
          omega
        · rw [if_neg hbr, ih t f]
          simp [List.countP_cons, hs]
          omega
    · have hs' : s.truth = false := by simpa using hs
      simp only [photoMarks]
      rw [if_neg fun h => hs h.1]
      by_cases hf : f < quota
      · rw [if_pos ⟨hs', hf⟩]
        by_cases hbr : t = quota ∧ f + 1 = quota
        · rw [if_pos hbr]
          simp [List.countP_cons, hs']
          omega
        · rw [if_neg hbr]
          simp [List.countP_cons, hs', ih t (f + 1)]
      · rw [if_neg fun h => hf h.2]
        by_cases hbr : t = quota ∧ f = quota
        · rw [if_pos hbr]
          simp [List.countP_cons, hs']
          omega
        · rw [if_neg hbr, ih t f]
          simp [List.countP_cons, hs']

/-- Count of false entries marked by the walk, symmetric to
photoMarks_countP_true. -/
theorem photoMarks_countP_false (quota : Nat) :
    ∀ (l : List Stimulus) (t f : Nat),
      (photoMarks quota l t f).countP (fun s => !s.truth)
        = min (quota - f) (l.countP (fun s => !s.truth)) := by
  intro l
  induction l with
  | nil => intro t f; simp [photoMarks]
  | cons s rest ih =>
    intro t f
    by_cases hs : s.truth = true
    · simp only [photoMarks]
      by_cases ht : t < quota
      · rw [if_pos ⟨hs, ht⟩]
        by_cases hbr : t + 1 = quota ∧ f = quota
        · rw [if_pos hbr]
          simp [List.countP_cons, hs]
          omega
        · rw [if_neg hbr]
          simp [List.countP_cons, hs, ih (t + 1) f]
      · rw [if_neg fun h => ht h.2, if_neg fun h => by { rw [hs] at h; exact absurd h.1 (by simp) }]
        by_cases hbr : t = quota ∧ f = quota
        · rw [if_pos hbr]
          simp [List.countP_cons, hs]
          omega
        · rw [if_neg hbr, ih t f]
          simp [List.countP_cons, hs]
    · have hs' : s.truth = false := by simpa using hs
      simp only [photoMarks]
      rw [if_neg fun h => hs h.1]
      by_cases hf : f < quota
      · rw [if_pos ⟨hs', hf⟩]
        by_cases hbr : t = quota ∧ f + 1 = quota
        · rw [if_pos hbr]
          simp [List.countP_cons, hs']
          omega
        · rw [if_neg hbr]
          simp [List.countP_cons, hs', ih t (f + 1)]
          omega
      · rw [if_neg fun h => hf h.2]
        by_cases hbr : t = quota ∧ f = quota
        · rw [if_pos hbr]
          simp [List.countP_cons, hs']
          omega
        · rw [if_neg hbr, ih t f]
          simp [List.countP_cons, hs']
          omega

/-- Counting, inside a list with duplicate-free keys, the elements whose key
appears in a chosen subsequence reproduces the count over the subsequence:
the key-membership test recovers exactly the chosen elements. -/
theorem countP_keys_of_sublist {α β : Type} [DecidableEq β] (key : α → β)
    (p : α → Bool) :
    ∀ {l ms : List α}, List.Sublist ms l → ((l.map key).Nodup) →
      l.countP (fun s => p s && decide (key s ∈ ms.map key)) = ms.countP p := by
  intro l ms hsub
  induction hsub with
  | slnil => intro _; rfl
  | @cons ms l₂ a h ih =>
    intro hnd
    rw [List.map_cons] at hnd
    have hna : key a ∉ l₂.map key := (List.nodup_cons.1 hnd).1
    have hnd₂ : (l₂.map key).Nodup := (List.nodup_cons.1 hnd).2
    have hfa : (p a && decide (key a ∈ ms.map key)) = false := by
      rcases hmem : decide (key a ∈ ms.map key) with _ | _
      · simp
      · exfalso
        have : key a ∈ ms.map key := of_decide_eq_true hmem
        exact hna (List.map_subset key h.subset this)
    rw [List.countP_cons, hfa, if_neg (by simp), ih hnd₂, Nat.add_zero]
  | @cons₂ ms l₂ a h ih =>
    intro hnd
    rw [List.map_cons] at hnd
    have hna : key a ∉ l₂.map key := (List.nodup_cons.1 hnd).1
    have hnd₂ : (l₂.map key).Nodup := (List.nodup_cons.1 hnd).2
    rw [List.countP_cons, List.countP_cons]
    have hcongr :
        l₂.countP (fun s => p s && decide (key s ∈ (a :: ms).map key))
          = l₂.countP (fun s => p s && decide (key s ∈ ms.map key)) := by
      refine List.countP_congr ?_
      intro s hsm
      have hne : key s ≠ key a := by
        intro he
        exact hna (he ▸ List.mem_map_of_mem key hsm)
      simp [List.mem_cons, hne]
    rw [hcongr, ih hnd₂]
    have : (p a && decide (key a ∈ (a :: ms).map key)) = p a := by
      simp
    rw [this]

/-- Ids of the true pool of a duplicate-free-id bank are duplicate-free. -/
theorem truePool_map_id_nodup (bank : List Stimulus)
    (hids : (bank.map Stimulus.id).Nodup) :
    ((truePool bank).map Stimulus.id).Nodup :=
  hids.sublist ((List.filter_sublist bank).map Stimulus.id)

/-- Ids of the false pool of a duplicate-free-id bank are duplicate-free. -/
theorem falsePool_map_id_nodup (bank : List Stimulus)
    (hids : (bank.map Stimulus.id).Nodup) :
    ((falsePool bank).map Stimulus.id).Nodup :=
  hids.sublist ((List.filter_sublist bank).map Stimulus.id)

/-- Every entry of the shuffled trial list is one of the bank's entries. -/
theorem SamplerRun.mem_bank {bank : List Stimulus} {nT nF : Nat}
    {idxT idxF : List Nat} {shuffled photoPerm : List Stimulus}
    (hrun : SamplerRun bank nT nF idxT idxF shuffled photoPerm) :
    ∀ s ∈ shuffled, s ∈ bank := by
  obtain ⟨-, -, hsh, -⟩ := hrun
  intro s hs
  rcases List.mem_append.1 (hsh.mem_iff.1 hs) with h | h
  · exact (List.mem_filter.1 (mem_sampleIdx h)).1
  · exact (List.mem_filter.1 (mem_sampleIdx h)).1

/-- The shuffled trial list of a run over a duplicate-free-id bank has
duplicate-free ids. -/
theorem SamplerRun.shuffled_id_nodup {bank : List Stimulus} {nT nF : Nat}
    {idxT idxF : List Nat} {shuffled photoPerm : List Stimulus}
    (hids : (bank.map Stimulus.id).Nodup)
    (hrun : SamplerRun bank nT nF idxT idxF shuffled photoPerm) :
    (shuffled.map Stimulus.id).Nodup := by
  obtain ⟨⟨hTn, hTl, hTb⟩, ⟨hFn, hFl, hFb⟩, hsh, -⟩ := hrun
  rw [(hsh.map Stimulus.id).nodup_iff, List.map_append]
  refine List.nodup_append.2 ⟨?_, ?_, ?_⟩
  · exact sampleIdx_map_id_nodup _ _ (truePool_map_id_nodup bank hids) hTn hTb
  · exact sampleIdx_map_id_nodup _ _ (falsePool_map_id_nodup bank hids) hFn hFb
  · intro k hk1 hk2
    obtain ⟨a, ha, hak⟩ := List.mem_map.1 hk1
    obtain ⟨b, hb, hbk⟩ := List.mem_map.1 hk2
    have haf := List.mem_filter.1 (mem_sampleIdx ha)
    have hbf := List.mem_filter.1 (mem_sampleIdx hb)
    have hab : a = b :=
      List.inj_on_of_nodup_map hids haf.1 hbf.1 (by rw [hak, hbk])
    have : a.truth = true := by simpa using haf.2
    have hbt : b.truth = false := by simpa using hbf.2
    rw [hab, hbt] at this
    cases this

/-- A run's shuffled trial list holds exactly nT true entries. -/
theorem SamplerRun.countP_true {bank : List Stimulus} {nT nF : Nat}
    {idxT idxF : List Nat} {shuffled photoPerm : List Stimulus}
    (hrun : SamplerRun bank nT nF idxT idxF shuffled photoPerm) :
    shuffled.countP (fun s => s.truth) = nT := by
  obtain ⟨⟨hTn, hTl, hTb⟩, ⟨hFn, hFl, hFb⟩, hsh, -⟩ := hrun
  rw [hsh.countP_eq, List.countP_append]
  have h1 : (sampleIdx (truePool bank) idxT).countP (fun s => s.truth)
      = (sampleIdx (truePool bank) idxT).length := by
    refine List.countP_eq_length.2 ?_
    intro s hs
    exact (List.mem_filter.1 (mem_sampleIdx hs)).2
  have h2 : (sampleIdx (falsePool bank) idxF).countP (fun s => s.truth) = 0 := by
    refine List.countP_eq_zero.2 ?_
    intro s hs
    have := (List.mem_filter.1 (mem_sampleIdx hs)).2
    simp only [Bool.not_eq_true'] at this
    simp [this]
  rw [h1, h2, sampleIdx_length _ _ hTb, hTl, Nat.add_zero]

/-- A run's shuffled trial list holds exactly nF false entries. -/
theorem SamplerRun.countP_false {bank : List Stimulus} {nT nF : Nat}
    {idxT idxF : List Nat} {shuffled photoPerm : List Stimulus}
    (hrun : SamplerRun bank nT nF idxT idxF shuffled photoPerm) :
    shuffled.countP (fun s => !s.truth) = nF := by
  obtain ⟨⟨hTn, hTl, hTb⟩, ⟨hFn, hFl, hFb⟩, hsh, -⟩ := hrun
  rw [hsh.countP_eq, List.countP_append]
  have h1 : (sampleIdx (truePool bank) idxT).countP (fun s => !s.truth) = 0 := by
    refine List.countP_eq_zero.2 ?_
    intro s hs
    have := (List.mem_filter.1 (mem_sampleIdx hs)).2
    simp_all
  have h2 : (sampleIdx (falsePool bank) idxF).countP (fun s => !s.truth)
      = (sampleIdx (falsePool bank) idxF).length := by
    refine List.countP_eq_length.2 ?_
    intro s hs
    exact (List.mem_filter.1 (mem_sampleIdx hs)).2
  rw [h1, h2, sampleIdx_length _ _ hFb, hFl, Nat.zero_add]

/-- A run's shuffled trial list has length nT + nF. -/
theorem SamplerRun.shuffled_length {bank : List Stimulus} {nT nF : Nat}
    {idxT idxF : List Nat} {shuffled photoPerm : List Stimulus}
    (hrun : SamplerRun bank nT nF idxT idxF shuffled photoPerm) :
    shuffled.length = nT + nF := by
  obtain ⟨⟨hTn, hTl, hTb⟩, ⟨hFn, hFl, hFb⟩, hsh, -⟩ := hrun
  rw [hsh.length_eq, List.length_append, sampleIdx_length _ _ hTb,
    sampleIdx_length _ _ hFb, hTl, hFl]

/-- The marked entries of a run form a sub-permutation of the trial list. -/
theorem SamplerRun.marks_subperm {bank : List Stimulus} {nT nF : Nat}
    {idxT idxF : List Nat} {shuffled photoPerm : List Stimulus}
    (hrun : SamplerRun bank nT nF idxT idxF shuffled photoPerm) (quota : Nat) :
    List.Subperm (photoMarks quota photoPerm 0 0) shuffled := by
  obtain ⟨-, -, -, hpp⟩ := hrun
  exact ((photoMarks_sublist quota photoPerm 0 0).subperm.trans hpp.subperm).trans
    (List.filter_sublist shuffled).subperm

/-- Every entry marked by a run's photo walk carries a usable photo. -/
theorem SamplerRun.marks_path {bank : List Stimulus} {nT nF : Nat}
    {idxT idxF : List Nat} {shuffled photoPerm : List Stimulus} {quota : Nat}
    (hrun : SamplerRun bank nT nF idxT idxF shuffled photoPerm) :
    ∀ m ∈ photoMarks quota photoPerm 0 0, m.path.isSome = true := by
  obtain ⟨-, -, -, hpp⟩ := hrun
  intro m hm
  have : m ∈ photoPerm := (photoMarks_sublist quota photoPerm 0 0).subset hm
  exact (List.mem_filter.1 (hpp.mem_iff.1 this)).2

/-- C1: for every bank containing at least n_true entries with truth = true
and at least n_false entries with truth = false (witnessed by a valid
sampler run, which presupposes pools of at least that size), the sampler
returns a trial list of length n_true + n_false containing exactly n_true
true entries and exactly n_false false entries, with all ids distinct and
each entry drawn without replacement from the bank (its id, text, truth and
photo fields are those of a bank entry).  Duplicate-free bank ids are the
spec's bank contract (a duplicate id fails the load). -/
theorem C1_balanced_sampler
    (bank : List Stimulus) (nT nF quota : Nat) (idxT idxF : List Nat)
    (shuffled photoPerm : List Stimulus)
    (hids : (bank.map Stimulus.id).Nodup)
    (hrun : SamplerRun bank nT nF idxT idxF shuffled photoPerm) :
    (balanced_subset quota shuffled photoPerm).length = nT + nF ∧
    (balanced_subset quota shuffled photoPerm).countP (fun s => s.truth) = nT ∧
    (balanced_subset quota shuffled photoPerm).countP (fun s => !s.truth) = nF ∧
    ((balanced_subset quota shuffled photoPerm).map Stimulus.id).Nodup ∧
    ∀ s ∈ balanced_subset quota shuffled photoPerm,
      ∃ b ∈ bank, s.id = b.id ∧ s.text = b.text ∧ s.truth = b.truth ∧
        s.photo = b.photo := by
  have hmapid : (balanced_subset quota shuffled photoPerm).map Stimulus.id
      = shuffled.map Stimulus.id := by
    rw [balanced_subset, applyMarks, List.map_map]
    refine List.map_congr_left ?_
    intro s _
    by_cases h : s.id ∈ markIds quota photoPerm <;> simp [h]
  refine ⟨?_, ?_, ?_, ?_, ?_⟩
  · rw [balanced_subset, applyMarks, List.length_map]
    exact hrun.shuffled_length
  · rw [balanced_subset, applyMarks, List.countP_map]
    refine Eq.trans (List.countP_congr ?_) hrun.countP_true
    intro s _
    by_cases h : s.id ∈ markIds quota photoPerm <;> simp [h]
  · rw [balanced_subset, applyMarks, List.countP_map]
    refine Eq.trans (List.countP_congr ?_) hrun.countP_false
    intro s _
    by_cases h : s.id ∈ markIds quota photoPerm <;> simp [h]
  · rw [hmapid]
    exact SamplerRun.shuffled_id_nodup hids hrun
  · intro s hs
    obtain ⟨s₀, hs₀, hmk⟩ := List.mem_map.1 hs
    refine ⟨s₀, hrun.mem_bank s₀ hs₀, ?_⟩
    subst hmk
    by_cases h : s₀.id ∈ markIds quota photoPerm <;> simp [h]

/-- Witness for C1: a run over the concrete four-entry bank drawing two true
and two false entries with photo quota one. -/
theorem C1_balanced_sampler_witness :
    (balanced_subset 1 exShuffled exPhotoPerm).length = 2 + 2 ∧
    (balanced_subset 1 exShuffled exPhotoPerm).countP (fun s => s.truth) = 2 ∧
    (balanced_subset 1 exShuffled exPhotoPerm).countP (fun s => !s.truth) = 2 ∧
    ((balanced_subset 1 exShuffled exPhotoPerm).map Stimulus.id).Nodup ∧
    ∀ s ∈ balanced_subset 1 exShuffled exPhotoPerm,
      ∃ b ∈ exBank, s.id = b.id ∧ s.text = b.text ∧ s.truth = b.truth ∧
        s.photo = b.photo :=
  C1_balanced_sampler exBank 2 2 1 [0, 1] [0, 1] exShuffled exPhotoPerm
    (by decide) (by decide)

/-- Record update used by the marking never changes the image path. -/
theorem path_mark (s : Stimulus) :
    (({ s with show_photo := true }) : Stimulus).path = s.path := rfl

/-- Subperm version of countP_keys_of_sublist. -/
theorem countP_keys_of_subperm {α β : Type} [DecidableEq β] (key : α → β)
    (p : α → Bool) {l ms : List α} (hsub : List.Subperm ms l)
    (hnd : (l.map key).Nodup) :
    l.countP (fun s => p s && decide (key s ∈ ms.map key)) = ms.countP p := by
  obtain ⟨ms', hperm, hsl⟩ := hsub
  have h1 : l.countP (fun s => p s && decide (key s ∈ ms.map key))
      = l.countP (fun s => p s && decide (key s ∈ ms'.map key)) := by
    refine List.countP_congr ?_
    intro s _
    have hiff : (key s ∈ ms.map key) ↔ (key s ∈ ms'.map key) :=
      (hperm.map key).mem_iff.symm
    simp [hiff]
  rw [h1, countP_keys_of_sublist key p hsl hnd, hperm.countP_eq]

/-- C2: in every sampler run the number of returned entries with
truth = true and show_photo = true equals min(n_photo_each, number of true
entries of the returned list that carry a usable photo), symmetrically for
false entries, and a set show_photo flag always comes with a usable photo
(so when fewer than n_photo_each photo-bearing entries of a truth value
exist, all of them are marked). -/
theorem C2_photo_quota
    (bank : List Stimulus) (nT nF quota : Nat) (idxT idxF : List Nat)
    (shuffled photoPerm : List Stimulus)
    (hids : (bank.map Stimulus.id).Nodup)
    (hflags : ∀ s ∈ bank, s.show_photo = false)
    (hrun : SamplerRun bank nT nF idxT idxF shuffled photoPerm) :
    ((balanced_subset quota shuffled photoPerm).countP
        (fun s => s.truth && s.show_photo)
      = min quota ((balanced_subset quota shuffled photoPerm).countP
        (fun s => s.truth && s.path.isSome))) ∧
    ((balanced_subset quota shuffled photoPerm).countP
        (fun s => !s.truth && s.show_photo)
      = min quota ((balanced_subset quota shuffled photoPerm).countP
        (fun s => !s.truth && s.path.isSome))) ∧
    ∀ s ∈ balanced_subset quota shuffled photoPerm,
      s.show_photo = true → s.path.isSome = true := by
  have hpp := hrun.2.2.2
  have hflagsS : ∀ s ∈ shuffled, s.show_photo = false := fun s hs =>
    hflags s (hrun.mem_bank s hs)
  have hnd : (shuffled.map Stimulus.id).Nodup :=
    SamplerRun.shuffled_id_nodup hids hrun
  have hpathT : (balanced_subset quota shuffled photoPerm).countP
      (fun s => s.truth && s.path.isSome)
      = shuffled.countP (fun s => s.truth && s.path.isSome) := by
    rw [balanced_subset, applyMarks, List.countP_map]
    refine List.countP_congr ?_
    intro s _
    by_cases h : s.id ∈ markIds quota photoPerm <;> simp [h, path_mark]
  have hpathF : (balanced_subset quota shuffled photoPerm).countP
      (fun s => !s.truth && s.path.isSome)
      = shuffled.countP (fun s => !s.truth && s.path.isSome) := by
    rw [balanced_subset, applyMarks, List.countP_map]
    refine List.countP_congr ?_
    intro s _
    by_cases h : s.id ∈ markIds quota photoPerm <;> simp [h, path_mark]
  refine ⟨?_, ?_, ?_⟩
  · have hshow : (balanced_subset quota shuffled photoPerm).countP
        (fun s => s.truth && s.show_photo)
        = shuffled.countP
          (fun s => s.truth && decide (s.id ∈ markIds quota photoPerm)) := by
      rw [balanced_subset, applyMarks, List.countP_map]
      refine List.countP_congr ?_
      intro s hs
      by_cases h : s.id ∈ markIds quota photoPerm <;> simp [h, hflagsS s hs]
    have hkey : shuffled.countP
        (fun s => s.truth && decide (s.id ∈ markIds quota photoPerm))
        = (photoMarks quota photoPerm 0 0).countP (fun s => s.truth) :=
      countP_keys_of_subperm Stimulus.id (fun s => s.truth)
        (hrun.marks_subperm quota) hnd
    have hmin1 : (photoMarks quota photoPerm 0 0).countP (fun s => s.truth)
        = min quota (shuffled.countP (fun s => s.truth && s.path.isSome)) := by
      rw [photoMarks_countP_true, Nat.sub_zero, hpp.countP_eq,
        List.countP_filter]
    rw [hshow, hkey, hmin1, hpathT]
  · have hshow : (balanced_subset quota shuffled photoPerm).countP
        (fun s => !s.truth && s.show_photo)
        = shuffled.countP
          (fun s => !s.truth && decide (s.id ∈ markIds quota photoPerm)) := by
      rw [balanced_subset, applyMarks, List.countP_map]
      refine List.countP_congr ?_
      intro s hs
      by_cases h : s.id ∈ markIds quota photoPerm <;> simp [h, hflagsS s hs]
    have hkey : shuffled.countP
        (fun s => !s.truth && decide (s.id ∈ markIds quota photoPerm))
        = (photoMarks quota photoPerm 0 0).countP (fun s => !s.truth) :=
      countP_keys_of_subperm Stimulus.id (fun s => !s.truth)
        (hrun.marks_subperm quota) hnd
    have hmin2 : (photoMarks quota photoPerm 0 0).countP (fun s => !s.truth)
        = min quota (shuffled.countP (fun s => !s.truth && s.path.isSome)) := by
      rw [photoMarks_countP_false, Nat.sub_zero, hpp.countP_eq,
        List.countP_filter]
    rw [hshow, hkey, hmin2, hpathF]
  · intro s hs hset
    obtain ⟨s₀, hs₀, hmk⟩ := List.mem_map.1 hs
    by_cases h : s₀.id ∈ markIds quota photoPerm
    · obtain ⟨m, hm, hmid⟩ := List.mem_map.1
        (show s₀.id ∈ (photoMarks quota photoPerm 0 0).map Stimulus.id from h)
      have hmsh : m ∈ shuffled := (hrun.marks_subperm quota).subset hm
      have hms₀ : m = s₀ := List.inj_on_of_nodup_map hnd hmsh hs₀ hmid
      have hpath' : s₀.path.isSome = true := hms₀ ▸ hrun.marks_path m hm
      rw [← hmk]
      simp [h, path_mark, hpath']
    · rw [← hmk] at hset
      simp [h, hflagsS s₀ hs₀] at hset

/-- Witness for C2 at the concrete four-entry bank with photo quota one. -/
theorem C2_photo_quota_witness :
    ((balanced_subset 1 exShuffled exPhotoPerm).countP
        (fun s => s.truth && s.show_photo)
      = min 1 ((balanced_subset 1 exShuffled exPhotoPerm).countP
        (fun s => s.truth && s.path.isSome))) ∧
    ((balanced_subset 1 exShuffled exPhotoPerm).countP
        (fun s => !s.truth && s.show_photo)
      = min 1 ((balanced_subset 1 exShuffled exPhotoPerm).countP
        (fun s => !s.truth && s.path.isSome))) ∧
    ∀ s ∈ balanced_subset 1 exShuffled exPhotoPerm,
      s.show_photo = true → s.path.isSome = true :=
  C2_photo_quota exBank 2 2 1 [0, 1] [0, 1] exShuffled exPhotoPerm
    (by decide) (by decide) (by decide)

/-- Entries of a run's trial list flagged show_photo always carry a usable
photo (shared between the quota and png-gating claims). -/
theorem balanced_subset_show_photo_path
    {bank : List Stimulus} {nT nF quota : Nat} {idxT idxF : List Nat}
    {shuffled photoPerm : List Stimulus}
    (hids : (bank.map Stimulus.id).Nodup)
    (hflags : ∀ s ∈ bank, s.show_photo = false)
    (hrun : SamplerRun bank nT nF idxT idxF shuffled photoPerm) :
    ∀ s ∈ balanced_subset quota shuffled photoPerm,
      s.show_photo = true → s.path.isSome = true := by
  have hflagsS : ∀ s ∈ shuffled, s.show_photo = false := fun s hs =>
    hflags s (hrun.mem_bank s hs)
  have hnd : (shuffled.map Stimulus.id).Nodup :=
    SamplerRun.shuffled_id_nodup hids hrun
  intro s hs hset
  obtain ⟨s₀, hs₀, hmk⟩ := List.mem_map.1 hs
  by_cases h : s₀.id ∈ markIds quota photoPerm
  · obtain ⟨m, hm, hmid⟩ := List.mem_map.1
      (show s₀.id ∈ (photoMarks quota photoPerm 0 0).map Stimulus.id from h)
    have hmsh : m ∈ shuffled := (hrun.marks_subperm quota).subset hm
    have hms₀ : m = s₀ := List.inj_on_of_nodup_map hnd hmsh hs₀ hmid
    have hpath' : s₀.path.isSome = true := hms₀ ▸ hrun.marks_path m hm
    rw [← hmk]
    simp [h, path_mark, hpath']
  · rw [← hmk] at hset
    simp [h, hflagsS s₀ hs₀] at hset

/-- Rounding a nonnegative rational to two decimals stays nonnegative. -/
theorem round2_nonneg {x : ℚ} (h : 0 ≤ x) : 0 ≤ round2 x := by
  have h0 : (0 : ℤ) ≤ round (100 * x) := by
    rw [round_eq]
    have hf : ⌊(0 : ℚ) + 1 / 2⌋ ≤ ⌊100 * x + 1 / 2⌋ := by
      apply Int.floor_mono
      nlinarith
    have hz : ⌊(0 : ℚ) + 1 / 2⌋ = 0 := by norm_num
    omega
  unfold round2
  apply div_nonneg _ (by norm_num)
  exact_mod_cast h0

/-- C3: in every session the cursor starts at 0 and only ever changes by
moving to its successor; an increment happens only on a successful submit
(non-sentinel answer, non-blank rationale, and a record actually returned),
and a submission that fails validation leaves the whole session — cursor and
trial clock included — unchanged. -/
theorem C3_cursor_monotone (pid g : String) (l : List Stimulus)
    (sess : AppSession) (a r : String) (now : ℚ) :
    (initialAppSession pid g l).current_index = 0 ∧
    ((submitApp sess a r now).1.current_index = sess.current_index ∨
      (submitApp sess a r now).1.current_index = sess.current_index + 1) ∧
    ((submitApp sess a r now).1.current_index = sess.current_index + 1 →
      a ≠ SENTINEL ∧ strTrim r ≠ "" ∧ (submitApp sess a r now).2.isSome = true) ∧
    ((a = SENTINEL ∨ strTrim r = "") → submitApp sess a r now = (sess, none)) := by
  refine ⟨rfl, ?_, ?_, ?_⟩
  · unfold submitApp
    split
    · split
      · exact Or.inl rfl
      · exact Or.inr rfl
    · exact Or.inl rfl
  · unfold submitApp
    split
    · split
      · intro hinc
        simp at hinc
      · next hval =>
        intro _
        push_neg at hval
        exact ⟨hval.1, hval.2, rfl⟩
    · intro hinc
      simp at hinc
  · intro hbad
    unfold submitApp
    split
    · split
      · rfl
      · next hval => exact absurd hbad hval
    · rfl

/-- Witness for C3 at a concrete session. -/
theorem C3_cursor_monotone_witness :
    (initialAppSession "p1" "Explain" exShuffled).current_index = 0 ∧
    ((submitApp exAppSession "True" "ok" 3).1.current_index
        = exAppSession.current_index ∨
      (submitApp exAppSession "True" "ok" 3).1.current_index
        = exAppSession.current_index + 1) ∧
    ((submitApp exAppSession "True" "ok" 3).1.current_index
        = exAppSession.current_index + 1 →
      "True" ≠ SENTINEL ∧ strTrim "ok" ≠ "" ∧
      (submitApp exAppSession "True" "ok" 3).2.isSome = true) ∧
    (("True" = SENTINEL ∨ strTrim "ok" = "") →
      submitApp exAppSession "True" "ok" 3 = (exAppSession, none)) :=
  C3_cursor_monotone "p1" "Explain" exShuffled exAppSession "True" "ok" 3

/-- C4: a valid submission on the current trial computes rt as now minus the
trial clock rounded to two decimals (nonnegative when the clock is not in
the future), appends a Response whose derived correct field equals
(answer == truth), clears the trial clock, advances the index, and returns
the record; answering "True" on a stimulus with truth = false yields
correct = false. -/
theorem C4_run_trial_success
    (ss : NewSession) (stim : Stimulus) (ans txt ts py pf sv : String)
    (now t0 : ℚ) (hclock : ss.t_start = some t0) (hle : t0 ≤ now)
    (hvalid : strTrim txt ≠ "") :
    ∃ rec,
      run_trial ss stim ans txt ts py pf sv now
        = ({ ss with responses := ss.responses ++ [rec], t_start := none,
                     idx := ss.idx + 1 }, some rec) ∧
      rec.rt = round2 (now - t0) ∧
      0 ≤ rec.rt ∧
      rec.correct = ((ans == "True") == stim.truth) ∧
      rec.answer = (ans == "True") ∧
      (ans = "True" → stim.truth = false → rec.correct = false) := by
  unfold run_trial
  rw [if_neg hvalid, hclock]
  refine ⟨_, rfl, rfl, ?_, rfl, rfl, ?_⟩
  · exact round2_nonneg (by linarith)
  · intro h1 h2
    simp [h1, h2]

/-- Witness for C4: submitting answer "True" with rationale "seems right" on
the concrete false stimulus exD. -/
theorem C4_run_trial_witness :
    ∃ rec,
      run_trial exNewSession exD "True" "seems right" "t" "p" "q" "v" 3
        = ({ exNewSession with responses := exNewSession.responses ++ [rec],
                               t_start := none,
                               idx := exNewSession.idx + 1 }, some rec) ∧
      rec.rt = round2 (3 - 1) ∧
      0 ≤ rec.rt ∧
      rec.correct = (("True" == "True") == exD.truth) ∧
      rec.answer = ("True" == "True") ∧
      ("True" = "True" → exD.truth = false → rec.correct = false) :=
  C4_run_trial_success exNewSession exD "True" "seems right" "t" "p" "q" "v"
    3 1 (by decide) (by norm_num) (by decide)

/-- C5: every submission whose answer is the sentinel or whose rationale is
blank after stripping is rejected (no record returned) and mutates nothing:
the session — responses, cursor and running trial clock — is returned
untouched. -/
theorem C5_validation_rejects (sess : AppSession) (a r : String) (now : ℚ)
    (hbad : a = SENTINEL ∨ strTrim r = "") :
    submitApp sess a r now = (sess, none) := by
  unfold submitApp
  split
  · rw [if_pos hbad]
  · rfl

/-- Witness for C5: both failure modes at a concrete session — sentinel
answer with a fine rationale, and a valid answer with a whitespace-only
rationale. -/
theorem C5_validation_rejects_witness :
    submitApp exAppSession SENTINEL "fine" 3 = (exAppSession, none) ∧
    submitApp exAppSession "True" "   " 3 = (exAppSession, none) :=
  ⟨C5_validation_rejects exAppSession SENTINEL "fine" 3 (Or.inl rfl),
   C5_validation_rejects exAppSession "True" "   " 3 (Or.inr (by decide))⟩

/-- C6: the local-merge step writes, when a local store already exists,
exactly the existing rows unchanged and in order followed by the session's
new rows in submission order (no reordering, no deduplication — the merged
length is the sum of the two lengths); when no local store exists, the store
is created with just the new rows. -/
theorem C6_local_merge {α : Type} (ex rows : List α) (remoteFails : Bool) :
    (finish (some ex) rows remoteFails).localStore.length
      = ex.length + rows.length ∧
    (finish (some ex) rows remoteFails).localStore.take ex.length = ex ∧
    (finish (some ex) rows remoteFails).localStore.drop ex.length = rows ∧
    (finish none rows remoteFails).localStore = rows := by
  refine ⟨?_, ?_, ?_, rfl⟩
  · simp [finish, mergeLocal]
  · simp [finish, mergeLocal, List.take_left]
  · simp [finish, mergeLocal, List.drop_left]

/-- Counterexample for C7: with an existing one-row local store and one new
session row, the completion branch hands the remote mirror the merged
two-row frame, not the single new row — df is rebound to the merged frame
before save_to_google_sheets(df) runs. -/
theorem C7_remote_mirror_counterexample :
    (finish (some [0]) [1] false).remoteAttempt ≠ [1] := by decide

/-- C7 amended: the remote-mirror step attempts to append the rows of the
merged local store — every pre-existing row again, followed by the session's
new rows; only when no local store pre-existed does the attempt coincide
with the session's new rows. -/
theorem C7_remote_mirror_amended {α : Type} (ex rows : List α)
    (remoteFails : Bool) :
    (finish (some ex) rows remoteFails).remoteAttempt
      = (finish (some ex) rows remoteFails).localStore ∧
    (finish (some ex) rows remoteFails).remoteAttempt.length
      = ex.length + rows.length ∧
    (finish (some ex) rows remoteFails).remoteAttempt.take ex.length = ex ∧
    (finish (some ex) rows remoteFails).remoteAttempt.drop ex.length = rows ∧
    (finish none rows remoteFails).remoteAttempt = rows := by
  refine ⟨rfl, ?_, ?_, ?_, rfl⟩
  · simp [finish, mergeLocal]
  · simp [finish, mergeLocal, List.take_left]
  · simp [finish, mergeLocal, List.drop_left]

/-- C8: a remote-mirror failure is absorbed by the try/except of
save_to_google_sheets and only flagged as a warning: the flush result still
reports a successful local write, the local store holds the merged rows —
every new session row included — and nothing is rolled back. -/
theorem C8_remote_failure_nonfatal {α : Type} (ex : Option (List α))
    (rows : List α) :
    (finish ex rows true).localOk = true ∧
    (finish ex rows true).remoteOk = false ∧
    (finish ex rows true).remoteWarned = true ∧
    (finish ex rows true).localStore = mergeLocal ex rows ∧
    ∀ x ∈ rows, x ∈ (finish ex rows true).localStore := by
  refine ⟨rfl, rfl, rfl, rfl, ?_⟩
  intro x hx
  cases ex <;> simp [finish, mergeLocal, hx]

/-- Witness for C8 with a concrete one-row store and two new rows. -/
theorem C8_remote_failure_witness :
    (finish (some [0]) [1, 2] true).localOk = true ∧
    (finish (some [0]) [1, 2] true).remoteOk = false ∧
    (finish (some [0]) [1, 2] true).remoteWarned = true ∧
    (finish (some [0]) [1, 2] true).localStore = mergeLocal (some [0]) [1, 2] ∧
    ∀ x ∈ [1, 2], x ∈ (finish (some [0]) [1, 2] true).localStore :=
  C8_remote_failure_nonfatal (some [0]) [1, 2]

/-- Counterexample for C9: a concrete valid sampler run after which the
shared bank is no longer equal to its pre-run state — the walk's
`s.show_photo = True` hit bank-held objects because the sampler never
copies. -/
theorem C9_no_copy_counterexample :
    SamplerRun exBank 2 2 [0, 1] [0, 1] exShuffled exPhotoPerm ∧
    bankAfter 1 exBank exPhotoPerm ≠ exBank :=
  ⟨by decide, by decide⟩

/-- C9 amended: the sampler does not copy bank entries before mutating
show_photo; a run leaves every field except show_photo of every bank entry
unchanged, but each trial entry flagged show_photo has its flag set on the
corresponding bank entry as well (the flags leak into the shared bank;
isolation between sessions in the scripts comes only from reloading the bank
from disk, not from copying). -/
theorem C9_no_copy_amended
    (bank : List Stimulus) (nT nF quota : Nat) (idxT idxF : List Nat)
    (shuffled photoPerm : List Stimulus)
    (hids : (bank.map Stimulus.id).Nodup)
    (hrun : SamplerRun bank nT nF idxT idxF shuffled photoPerm) :
    (∀ b ∈ bankAfter quota bank photoPerm, ∃ b₀ ∈ bank, b.id = b₀.id ∧
      b.text = b₀.text ∧ b.truth = b₀.truth ∧ b.photo = b₀.photo) ∧
    ∀ s ∈ balanced_subset quota shuffled photoPerm, s.show_photo = true →
      ∀ b ∈ bankAfter quota bank photoPerm, b.id = s.id →
        b.show_photo = true := by
  constructor
  · intro b hb
    obtain ⟨b₀, hb₀, hmk⟩ := List.mem_map.1 hb
    refine ⟨b₀, hb₀, ?_⟩
    subst hmk
    by_cases h : b₀.id ∈ markIds quota photoPerm <;> simp [h]
  · intro s hs hset b hb hbid
    obtain ⟨s₀, hs₀, hmks⟩ := List.mem_map.1 hs
    obtain ⟨b₀, hb₀, hmkb⟩ := List.mem_map.1 hb
    by_cases hmem : s₀.id ∈ markIds quota photoPerm
    · have hid : b₀.id = s₀.id := by
        have h1 : b.id = b₀.id := by
          rw [← hmkb]
          by_cases h : b₀.id ∈ markIds quota photoPerm <;> simp [h]
        have h2 : s.id = s₀.id := by
          rw [← hmks]
          by_cases h : s₀.id ∈ markIds quota photoPerm <;> simp [h]
        rw [← h1, hbid, h2]
      rw [← hmkb]
      simp [hid, hmem]
    · have hs₀s : s₀ = s := by rw [← hmks]; simp [hmem]
      have hset₀ : s₀.show_photo = true := by rw [hs₀s]; exact hset
      have hid : b₀.id = s₀.id := by
        have h1 : b.id = b₀.id := by
          rw [← hmkb]
          by_cases h : b₀.id ∈ markIds quota photoPerm <;> simp [h]
        rw [← h1, hbid, ← hs₀s]
      have hb₀s₀ : b₀ = s₀ :=
        List.inj_on_of_nodup_map hids hb₀
          (hrun.mem_bank s₀ hs₀) hid
      rw [← hmkb]
      by_cases h : b₀.id ∈ markIds quota photoPerm
      · simp [h]
      · simp [h, hb₀s₀, hmem, hset₀]

/-- Witness for the amended C9 at the concrete run. -/
theorem C9_no_copy_amended_witness :
    (∀ b ∈ bankAfter 1 exBank exPhotoPerm, ∃ b₀ ∈ exBank, b.id = b₀.id ∧
      b.text = b₀.text ∧ b.truth = b₀.truth ∧ b.photo = b₀.photo) ∧
    ∀ s ∈ balanced_subset 1 exShuffled exPhotoPerm, s.show_photo = true →
      ∀ b ∈ bankAfter 1 exBank exPhotoPerm, b.id = s.id →
        b.show_photo = true :=
  C9_no_copy_amended exBank 2 2 1 [0, 1] [0, 1] exShuffled exPhotoPerm
    (by decide) (by decide)

/-- C10: in the dataclass variants photo usability is gated on the ".png"
suffix — a returned stimulus whose photo reference does not end in ".png"
has no usable path, never has show_photo set, never counts toward the photo
quota (it is never marked by the walk), and its image is never displayed. -/
theorem C10_png_gate
    (bank : List Stimulus) (nT nF quota : Nat) (idxT idxF : List Nat)
    (shuffled photoPerm : List Stimulus)
    (hids : (bank.map Stimulus.id).Nodup)
    (hflags : ∀ s ∈ bank, s.show_photo = false)
    (hrun : SamplerRun bank nT nF idxT idxF shuffled photoPerm) :
    ∀ s ∈ balanced_subset quota shuffled photoPerm, ∀ p, s.photo = some p →
      strEndsWith p ".png" = false →
      s.show_photo = false ∧ s.path = none ∧ s.has_photo = false ∧
      (∀ e : Bool, displaysImage s e = false) ∧
      s ∉ photoMarks quota photoPerm 0 0 := by
  intro s hs p hp hpng
  have hpath : s.path = none := by
    simp [Stimulus.path, hp, hpng]
  have hshow : s.show_photo = false := by
    cases hsp : s.show_photo with
    | false => rfl
    | true =>
      have := balanced_subset_show_photo_path hids hflags hrun s hs hsp
      rw [hpath] at this
      cases this
  refine ⟨hshow, hpath, ?_, ?_, ?_⟩
  · simp [Stimulus.has_photo, hp, hpng]
  · intro e
    simp [displaysImage, hpath]
  · intro hmem
    have := hrun.marks_path s hmem
    rw [hpath] at this
    cases this

/-- Witness for C10: the concrete stimulus exD carries photo "d.jpg" and is
fully excluded from photo display. -/
theorem C10_png_gate_witness :
    exD.show_photo = false ∧ exD.path = none ∧ exD.has_photo = false ∧
    (∀ e : Bool, displaysImage exD e = false) ∧
    exD ∉ photoMarks 1 exPhotoPerm 0 0 :=
  C10_png_gate exBank 2 2 1 [0, 1] [0, 1] exShuffled exPhotoPerm
    (by decide) (by decide) (by decide) exD (by decide) "d.jpg" (by decide)
    (by decide)
